import Mathlib

/-!
Verification of the Yarn-to-CSV extractor (`src/YarnParser2.0.py`).

The whole program is one forward pass over the input lines
(`parse_yarn_to_csv`).  We embed it shallowly: Python strings become
`List Char`, the regular expressions used by the source
(`#(\S+)`, `#\S+`, `<<.*>>`, `([^:]+):\s*(.*)`) become explicit
scanning functions with the exact same match semantics, and the
per-line loop becomes a fold of `processLine` over the list of raw
lines.  Whitespace is the ASCII whitespace set that Python's
`str.strip` and `\s` / `\S` agree on for the inputs in scope; lines
produced by `readlines` never contain an interior newline, so `.`
in the conditional-removing pattern is modelled as matching any
character of the line.
-/

/-- ASCII whitespace, as stripped by Python `str.strip()` and matched
by `\s` (space, tab, newline, carriage return, vertical tab, form feed). -/
def pyIsSpace (c : Char) : Bool :=
  c = ' ' || c = '\t' || c = '\n' || c = '\r' || c.toNat = 11 || c.toNat = 12

/-- Python `str.strip()`: drop whitespace from both ends. -/
def pyStrip (l : List Char) : List Char :=
  ((l.dropWhile pyIsSpace).reverse.dropWhile pyIsSpace).reverse

/-- String literal to character list. -/
def strL (s : String) : List Char := s.toList

/-- Python `str.startswith`. -/
def startsWithL (p l : List Char) : Bool :=
  match p, l with
  | [], _ => true
  | _ :: _, [] => false
  | a :: ps, b :: ls => a == b && startsWithL ps ls

/-- ASCII lowercasing of one character, as Python `str.lower()` acts on
the ASCII range (only the first five characters of a tag matter for the
`line:` test, and those are compared against ASCII letters). -/
def lowerChar (c : Char) : Char :=
  if 65 ≤ c.toNat ∧ c.toNat ≤ 90 then Char.ofNat (c.toNat + 32) else c

/-- Python `str.lower()`. -/
def pyLower (l : List Char) : List Char := l.map lowerChar

/-- Python `line.split(':', 1)[1]`: everything after the first colon
(used only under the guard that the line starts with `title:`). -/
def afterColon (l : List Char) : List Char :=
  (l.dropWhile (fun c => c ≠ ':')).drop 1

/-- `re.findall(r'#(\S+)', text)`: scan left to right; at each `#`
followed by at least one non-whitespace character, capture the maximal
non-whitespace run after the `#` and continue after it.  The fuel
argument only bounds the recursion (every call strictly shortens the
list, so `l.length` fuel is never exhausted). -/
def findTagsGo : Nat → List Char → List (List Char)
  | 0, _ => []
  | _, [] => []
  | fuel + 1, c :: rest =>
    if c = '#' then
      let tag := rest.takeWhile (fun x => !(pyIsSpace x))
      if tag = [] then findTagsGo fuel rest
      else tag :: findTagsGo fuel (rest.drop tag.length)
    else findTagsGo fuel rest

def findTags (l : List Char) : List (List Char) := findTagsGo l.length l

/-- `re.sub(r'#\S+', '', text)`: remove exactly the spans matched by
`findTags` (each `#` together with its maximal non-whitespace run). -/
def removeTagsGo : Nat → List Char → List Char
  | 0, l => l
  | _, [] => []
  | fuel + 1, c :: rest =>
    if c = '#' then
      let tag := rest.takeWhile (fun x => !(pyIsSpace x))
      if tag = [] then '#' :: removeTagsGo fuel rest
      else removeTagsGo fuel (rest.drop tag.length)
    else c :: removeTagsGo fuel rest

def removeTags (l : List Char) : List Char := removeTagsGo l.length l

/-- `tag.lower().startswith('line:')`. -/
def isLineTag (t : List Char) : Bool :=
  startsWithL (strL "line:") (pyLower t)

/-- The source's selection loop: every tag whose lowercasing starts with
`line:` overwrites `line_id`, so the fold returns the LAST such tag
(empty if none). -/
def pickId (tags : List (List Char)) : List Char :=
  tags.foldl (fun acc t => if isLineTag t then t else acc) []

/-- Decimal digit character, as produced by Python `str(int)`. -/
def digitChar (n : Nat) : Char :=
  match n with
  | 0 => '0' | 1 => '1' | 2 => '2' | 3 => '3' | 4 => '4'
  | 5 => '5' | 6 => '6' | 7 => '7' | 8 => '8' | _ => '9'

/-- Numeric value of a decimal digit character. -/
def digitVal (c : Char) : Nat :=
  match c with
  | '0' => 0 | '1' => 1 | '2' => 2 | '3' => 3 | '4' => 4
  | '5' => 5 | '6' => 6 | '7' => 7 | '8' => 8 | _ => 9

/-- Decimal representation of a natural number, as Python `str(n)`.
The fuel argument only bounds the recursion (`n` itself strictly
decreases, so `n + 1` fuel is never exhausted). -/
def natDecGo : Nat → Nat → List Char
  | 0, _ => []
  | fuel + 1, n =>
    if n < 10 then [digitChar n]
    else natDecGo fuel (n / 10) ++ [digitChar (n % 10)]

def natDecimal (n : Nat) : List Char := natDecGo (n + 1) n

/-- Value of a digit string (left inverse of `natDecimal`). -/
def digitsVal (l : List Char) : Nat :=
  l.foldl (fun a c => 10 * a + digitVal c) 0

/-- `f"auto_id_{line_counter}"`. -/
def autoId (n : Nat) : List Char := strL "auto_id_" ++ natDecimal n

/-- `text.lstrip('->')`: drop every leading `-` or `>`. -/
def dropArrows (l : List Char) : List Char :=
  l.dropWhile (fun c => c = '-' || c = '>')

/-- Start indices of occurrences of the two-character run `aa` in `l`. -/
def pairPos (a : Char) (l : List Char) : List Nat :=
  match l with
  | c :: d :: rest =>
    if c = a ∧ d = a then 0 :: (pairPos a (d :: rest)).map (· + 1)
    else (pairPos a (d :: rest)).map (· + 1)
  | _ => []

/-- `re.sub(r'<<.*>>', '', text)` for a single line: the greedy pattern
matches from the first `<<` to the last `>>` ending after it (if any),
and the remainder can contain no further match, so at most one span is
removed. -/
def removeCond (s : List Char) : List Char :=
  match pairPos '<' s with
  | [] => s
  | i :: _ =>
    let qs := (pairPos '>' s).filter (fun q => i + 2 ≤ q)
    match qs.getLast? with
    | none => s
    | some q => s.take i ++ s.drop (q + 2)

/-- `re.match(r'([^:]+):\s*(.*)', text)` followed by the source's use of
the two groups: if the text has a colon at some position ≥ 1, the part
before the first colon (stripped) is the speaker and the part after it
(stripped) is the new text; otherwise the match fails and the text is
unchanged (no interior newline occurs in a line). -/
def speakerSplit (t : List Char) : List Char × List Char :=
  let before := t.takeWhile (fun c => c ≠ ':')
  if before.length = 0 ∨ before.length = t.length then ([], t)
  else (pyStrip before, pyStrip (t.drop (before.length + 1)))

/-- One output row of the extractor. -/
structure Record where
  line_id : List Char
  node_title : List Char
  character_name : List Char
  text : List Char
  tags : List (List Char)
deriving DecidableEq, Repr

/-- The parse state of `parse_yarn_to_csv`: current node title, body
flag, auto-id counter, and the rows written so far (in order). -/
structure PState where
  title : List Char
  inBody : Bool
  counter : Nat
  records : List Record
deriving DecidableEq, Repr

/-- State at the top of the loop. -/
def initState : PState :=
  { title := strL "NO_TITLE", inBody := false, counter := 0, records := [] }

/-- The body-content branch of the loop (source lines 56–93): tag
extraction and stripping, identifier selection or synthesis with the
post-increment of the counter, the empty-text guard, choice handling,
speaker extraction, and the row write. -/
def processBody (s : PState) (line : List Char) : PState :=
  let tags := findTags line
  let text := pyStrip (removeTags line)
  let lid := pickId tags
  let others := tags.filter (fun t => !(isLineTag t))
  let lid2 := if lid = [] then autoId s.counter else lid
  let cnt2 := if lid = [] then s.counter + 1 else s.counter
  if text = [] then { s with counter := cnt2 }
  else
    let isChoice := startsWithL (strL "->") text
    let ctext := pyStrip (removeCond (pyStrip (dropArrows text)))
    let sp := if isChoice then [] else (speakerSplit text).1
    let tx := if isChoice then ctext else (speakerSplit text).2
    { s with counter := cnt2,
             records := s.records ++ [⟨lid2, s.title, sp, tx, others⟩] }

/-- One iteration of the loop of `parse_yarn_to_csv` (source lines
34–93): strip the raw line, then the header / body-start / node-end /
body dispatch. -/
def processLine (s : PState) (raw : List Char) : PState :=
  let line := pyStrip raw
  if line = [] then s
  else if startsWithL (strL "title:") line then
    { s with title := pyStrip (afterColon line), inBody := false }
  else if line = strL "---" then { s with inBody := true }
  else if line = strL "===" then
    { s with inBody := false, title := strL "NO_TITLE" }
  else if s.inBody then
    if startsWithL (strL "//") line || startsWithL (strL "<<") line then s
    else processBody s line
  else s

/-- The whole extraction pass over a file's lines. -/
def parseYarn (lines : List (List Char)) : PState :=
  lines.foldl processLine initState

/-- The effect of one raw line on the current node title alone: a
`title:` header installs the substring after the first colon (trimmed),
a `===` marker resets to `NO_TITLE`, every other line leaves it
unchanged.  This is the projection of `processLine` onto the
`current_node_title` variable. -/
def titleStep (t : List Char) (raw : List Char) : List Char :=
  let line := pyStrip raw
  if line = [] then t
  else if startsWithL (strL "title:") line then pyStrip (afterColon line)
  else if line = strL "---" then t
  else if line = strL "===" then strL "NO_TITLE"
  else t

/-- The node title in force after reading a sequence of lines. -/
def titleAfter (ls : List (List Char)) : List Char :=
  ls.foldl titleStep (strL "NO_TITLE")

/-- `raw` is processed as body content: it is non-empty after
stripping, is not a `title:` header, not a `---` or `===` marker, the
state is in body mode, and the line is not a comment or command. -/
def BodyLine (s : PState) (raw : List Char) : Prop :=
  pyStrip raw ≠ [] ∧
  startsWithL (strL "title:") (pyStrip raw) = false ∧
  pyStrip raw ≠ strL "---" ∧
  pyStrip raw ≠ strL "===" ∧
  s.inBody = true ∧
  startsWithL (strL "//") (pyStrip raw) = false ∧
  startsWithL (strL "<<") (pyStrip raw) = false

instance (s : PState) (raw : List Char) : Decidable (BodyLine s raw) := by
  unfold BodyLine; exact inferInstance

/-- `raw` carries at least one tag whose lowercasing starts with
`line:`. -/
def hasLineTag (raw : List Char) : Bool :=
  (findTags (pyStrip raw)).any (fun t => isLineTag t)

/-- The text of a line after tag stripping (the value tested by the
empty-text guard of the source). -/
def tagText (raw : List Char) : List Char :=
  pyStrip (removeTags (pyStrip raw))

/-- Substring test (is `pat` a contiguous run inside `txt`). -/
def hasSub (pat txt : List Char) : Bool :=
  match txt with
  | [] => startsWithL pat []
  | c :: rest => startsWithL pat (c :: rest) || hasSub pat rest

/-- `'; '.join(other_tags)`. -/
def joinSemi (ts : List (List Char)) : List Char :=
  List.intercalate (strL "; ") ts

/-- The rows written to the destination file: the fixed header followed
by one row per record. -/
def outRows (s : PState) : List (List (List Char)) :=
  [[strL "line_id", strL "node_title", strL "character_name",
    strL "text", strL "tags"]] ++
  s.records.map (fun r =>
    [r.line_id, r.node_title, r.character_name, r.text, joinSemi r.tags])

/-- Observable outcome of one invocation of `parse_yarn_to_csv`:
process exit code, the user-facing message printed, and the destination
file written (path and rows), if any. -/
structure RunOutcome where
  exitCode : Nat
  message : List Char
  written : Option (List Char × List (List (List Char)))
deriving Repr

/-- The I/O skeleton of `parse_yarn_to_csv` (source lines 18–28 and
93–95): the input path is read first; on `FileNotFoundError` the
function prints a message naming the path and exits with code 1 before
the destination file is ever opened; otherwise the destination is
written and the success message printed.  The filesystem is modelled as
a map from paths to the line sequences `readlines` would return. -/
def runParser (fs : List Char → Option (List (List Char)))
    (inp outp : List Char) : RunOutcome :=
  match fs inp with
  | none =>
    { exitCode := 1,
      message := strL "Error: Input file not found at '" ++ inp ++ strL "'",
      written := none }
  | some lines =>
    { exitCode := 0,
      message := strL "Successfully parsed |:) '" ++ inp ++
        strL "' and created/updated '" ++ outp ++ strL "'",
      written := some (outp, outRows (parseYarn lines)) }

/-! ### General lemmas about the embedded primitives -/

theorem startsWithL_iff (p : List Char) : ∀ l : List Char,
    startsWithL p l = true ↔ ∃ rest, l = p ++ rest := by
  induction p with
  | nil =>
    intro l
    simp [startsWithL]
  | cons a ps ih =>
    intro l
    cases l with
    | nil =>
      simp only [startsWithL, List.cons_append]
      constructor
      · intro h; cases h
      · rintro ⟨rest, h⟩; cases h
    | cons b ls =>
      show (a == b && startsWithL ps ls) = true ↔ _
      rw [Bool.and_eq_true, beq_iff_eq, ih ls]
      constructor
      · rintro ⟨rfl, rest, rfl⟩
        exact ⟨rest, rfl⟩
      · rintro ⟨rest, h⟩
        rw [List.cons_append] at h
        injection h with h1 h2
        exact ⟨h1.symm, rest, h2⟩

theorem startsWithL_cons_false {a b : Char} (h : ¬ a = b)
    (ps ls : List Char) : startsWithL (a :: ps) (b :: ls) = false := by
  show (a == b && startsWithL ps ls) = false
  rw [beq_eq_false_iff_ne.mpr h, Bool.false_and]

theorem pickId_spec (tags : List (List Char)) :
    pickId tags = (tags.filter (fun t => isLineTag t)).getLastD [] := by
  have aux : ∀ (ts : List (List Char)) (acc : List Char),
      ts.foldl (fun a t => if isLineTag t then t else a) acc
        = (ts.filter (fun t => isLineTag t)).getLastD acc := by
    intro ts
    induction ts with
    | nil => intro acc; rfl
    | cons t ts ih =>
      intro acc
      by_cases h : isLineTag t = true
      · rw [List.foldl_cons, if_pos h, ih, List.filter_cons, if_pos h,
          List.getLastD_cons]
      · rw [List.foldl_cons, if_neg h, ih, List.filter_cons, if_neg h]
  exact aux tags []

theorem isLineTag_ne_nil {t : List Char} (h : isLineTag t = true) :
    t ≠ [] := by
  intro he
  rw [he] at h
  exact absurd h (by decide)

theorem pickId_nil_of_none {tags : List (List Char)}
    (h : tags.any (fun t => isLineTag t) = false) : pickId tags = [] := by
  rw [pickId_spec]
  have : tags.filter (fun t => isLineTag t) = [] := by
    rw [List.filter_eq_nil_iff]
    exact List.any_eq_false.mp h
  rw [this]
  rfl

theorem pickId_isLineTag {tags : List (List Char)}
    (h : tags.any (fun t => isLineTag t) = true) :
    isLineTag (pickId tags) = true := by
  rw [pickId_spec]
  rcases hf : tags.filter (fun t => isLineTag t) with _ | ⟨hd, tl⟩
  · obtain ⟨t, ht, hp⟩ := List.any_eq_true.mp h
    have : t ∈ tags.filter (fun t => isLineTag t) :=
      List.mem_filter.mpr ⟨ht, hp⟩
    rw [hf] at this
    cases this
  · have hmem : (hd :: tl).getLastD [] ∈ [] :: hd :: tl :=
      List.getLastD_mem_cons _ _
    rcases List.mem_cons.mp hmem with he | hin
    · -- the default [] is only returned for an empty list
      have hmem2 : (tl.getLastD hd) ∈ hd :: tl := List.getLastD_mem_cons _ _
      have : (hd :: tl).getLastD [] = tl.getLastD hd := List.getLastD_cons _ _ _
      rw [this] at he ⊢
      have : tl.getLastD hd ∈ tags.filter (fun t => isLineTag t) := by
        rw [hf]; exact hmem2
      exact (List.mem_filter.mp this).2
    · have : (hd :: tl).getLastD [] ∈ tags.filter (fun t => isLineTag t) := by
        rw [hf]; exact hin
      exact (List.mem_filter.mp this).2

theorem pickId_ne_nil {tags : List (List Char)}
    (h : tags.any (fun t => isLineTag t) = true) : pickId tags ≠ [] :=
  isLineTag_ne_nil (pickId_isLineTag h)

theorem digitVal_digitChar {m : Nat} (hm : m < 10) :
    digitVal (digitChar m) = m := by
  interval_cases m <;> rfl

theorem digitsVal_natDecGo : ∀ fuel n : Nat, n < fuel →
    digitsVal (natDecGo fuel n) = n := by
  intro fuel
  induction fuel with
  | zero => intro n h; omega
  | succ f ih =>
    intro n h
    show digitsVal (if n < 10 then [digitChar n]
      else natDecGo f (n / 10) ++ [digitChar (n % 10)]) = n
    by_cases h10 : n < 10
    · rw [if_pos h10]
      have hv : digitsVal [digitChar n] = 10 * 0 + digitVal (digitChar n) := rfl
      rw [hv, digitVal_digitChar h10]
      omega
    · rw [if_neg h10]
      unfold digitsVal
      rw [List.foldl_append]
      have ihn := ih (n / 10) (by omega)
      unfold digitsVal at ihn
      rw [ihn]
      show 10 * (n / 10) + digitVal (digitChar (n % 10)) = n
      rw [digitVal_digitChar (Nat.mod_lt n (by omega))]
      omega

theorem digitsVal_natDecimal (n : Nat) : digitsVal (natDecimal n) = n :=
  digitsVal_natDecGo (n + 1) n (by omega)

theorem natDecimal_inj {n m : Nat} (h : natDecimal n = natDecimal m) :
    n = m := by
  have := congrArg digitsVal h
  rwa [digitsVal_natDecimal, digitsVal_natDecimal] at this

theorem autoId_inj {n m : Nat} (h : autoId n = autoId m) : n = m :=
  natDecimal_inj (List.append_cancel_left h)

theorem isLineTag_ne_autoId {t : List Char} (n : Nat)
    (h : isLineTag t = true) : t ≠ autoId n := by
  intro he
  rw [he] at h
  have h2 : autoId n = 'a' :: (strL "uto_id_" ++ natDecimal n) := rfl
  rw [h2] at h
  have h3 : strL "line:" = 'l' :: strL "ine:" := rfl
  unfold isLineTag pyLower at h
  rw [h3, List.map_cons] at h
  have h4 : lowerChar 'a' = 'a' := by decide
  rw [h4] at h
  rw [startsWithL_cons_false (by decide) _ _] at h
  cases h

theorem pickId_isLineTag_of_ne_nil {tags : List (List Char)}
    (h : pickId tags ≠ []) : isLineTag (pickId tags) = true := by
  cases ha : tags.any (fun t => isLineTag t) with
  | false => exact absurd (pickId_nil_of_none ha) h
  | true => exact pickId_isLineTag ha

/-- Closed form of the body-content branch: the counter advances exactly
when no `line:` tag was found, and a row is appended exactly when the
tag-stripped text is non-empty. -/
theorem processBody_spec (s : PState) (line : List Char) :
    processBody s line =
      { s with
        counter :=
          if pickId (findTags line) = [] then s.counter + 1 else s.counter,
        records :=
          if pyStrip (removeTags line) = [] then s.records
          else
            s.records ++
              [⟨if pickId (findTags line) = [] then autoId s.counter
                  else pickId (findTags line),
                s.title,
                if startsWithL (strL "->") (pyStrip (removeTags line)) then []
                  else (speakerSplit (pyStrip (removeTags line))).1,
                if startsWithL (strL "->") (pyStrip (removeTags line)) then
                    pyStrip (removeCond (pyStrip (dropArrows
                      (pyStrip (removeTags line)))))
                  else (speakerSplit (pyStrip (removeTags line))).2,
                (findTags line).filter (fun t => !(isLineTag t))⟩] } := by
  simp only [processBody]
  split_ifs <;> rfl

theorem processBody_title (s : PState) (line : List Char) :
    (processBody s line).title = s.title := by
  rw [processBody_spec]

theorem processLine_title (s : PState) (raw : List Char) :
    (processLine s raw).title = titleStep s.title raw := by
  simp only [processLine, titleStep]
  split_ifs <;> first | rfl | exact processBody_title s _

/-- Every step either leaves the rows unchanged or appends one row, and
an appended row carries the node title in force before the step. -/
theorem processLine_delta (s : PState) (raw : List Char) :
    (processLine s raw).records = s.records ∨
      ∃ r, (processLine s raw).records = s.records ++ [r] ∧
        r.node_title = s.title := by
  simp only [processLine]
  split_ifs <;> try exact Or.inl rfl
  rw [processBody_spec]
  by_cases ht : pyStrip (removeTags (pyStrip raw)) = []
  · rw [if_pos ht]
    exact Or.inl rfl
  · rw [if_neg ht]
    exact Or.inr ⟨_, rfl, rfl⟩

/-- Every step either keeps the identifier-less counter or advances it
by one; and an appended row's identifier is either a `line:` tag or the
synthesized id of the counter in force before the step (in which case
the counter advanced). -/
theorem processLine_cases (s : PState) (raw : List Char) :
    ((processLine s raw).records = s.records ∧
      ((processLine s raw).counter = s.counter ∨
        (processLine s raw).counter = s.counter + 1)) ∨
    (∃ r, (processLine s raw).records = s.records ++ [r] ∧
      ((isLineTag r.line_id = true ∧
          (processLine s raw).counter = s.counter) ∨
       (r.line_id = autoId s.counter ∧
          (processLine s raw).counter = s.counter + 1))) := by
  simp only [processLine]
  split_ifs <;> try exact Or.inl ⟨rfl, Or.inl rfl⟩
  rw [processBody_spec]
  by_cases ht : pyStrip (removeTags (pyStrip raw)) = [] <;>
    by_cases hp : pickId (findTags (pyStrip raw)) = []
  · rw [if_pos ht, if_pos hp]
    exact Or.inl ⟨rfl, Or.inr rfl⟩
  · rw [if_pos ht, if_neg hp]
    exact Or.inl ⟨rfl, Or.inl rfl⟩
  · rw [if_neg ht]
    refine Or.inr ⟨_, rfl, Or.inr ⟨?_, ?_⟩⟩
    · rw [if_pos hp]
    · rw [if_pos hp]
  · rw [if_neg ht]
    refine Or.inr ⟨_, rfl, Or.inl ⟨?_, ?_⟩⟩
    · rw [if_neg hp]
      exact pickId_isLineTag_of_ne_nil hp
    · rw [if_neg hp]

theorem processLine_counter_mono (s : PState) (raw : List Char) :
    s.counter ≤ (processLine s raw).counter := by
  rcases processLine_cases s raw with ⟨_, hc | hc⟩ | ⟨r, _, ⟨_, hc⟩ | ⟨_, hc⟩⟩ <;>
    omega

theorem parseYarn_append (xs : List (List Char)) (l : List Char) :
    parseYarn (xs ++ [l]) = processLine (parseYarn xs) l := by
  simp [parseYarn, List.foldl_append]

theorem foldl_title (ls : List (List Char)) : ∀ s : PState,
    (ls.foldl processLine s).title = ls.foldl titleStep s.title := by
  induction ls with
  | nil => intro s; rfl
  | cons l ls ih =>
    intro s
    rw [List.foldl_cons, List.foldl_cons, ih, processLine_title]

theorem parseYarn_title (ls : List (List Char)) :
    (parseYarn ls).title = titleAfter ls := by
  rw [parseYarn, titleAfter, foldl_title]
  rfl

theorem foldl_inv {P : PState → Prop}
    (step : ∀ s raw, P s → P (processLine s raw)) :
    ∀ (ls : List (List Char)) (s : PState), P s →
      P (ls.foldl processLine s) := by
  intro ls
  induction ls with
  | nil => intro s h; exact h
  | cons l ls ih => intro s h; exact ih _ (step s l h)

/-- Identifier invariant: every row's id is a `line:` tag or a
synthesized id below the counter, and synthesized ids occur with
strictly increasing counter values along the row list. -/
def IdInv (s : PState) : Prop :=
  (∀ r ∈ s.records, isLineTag r.line_id = true ∨
      ∃ n, n < s.counter ∧ r.line_id = autoId n) ∧
  s.records.Pairwise (fun a b => ∀ n m,
      a.line_id = autoId n → b.line_id = autoId m → n < m)

theorem idInv_step (s : PState) (raw : List Char) (h : IdInv s) :
    IdInv (processLine s raw) := by
  obtain ⟨h1, h2⟩ := h
  have hmono := processLine_counter_mono s raw
  rcases processLine_cases s raw with ⟨hr, _⟩ | ⟨r, hr, hcase⟩
  · constructor
    · rw [hr]
      intro x hx
      rcases h1 x hx with hl | ⟨n, hn, he⟩
      · exact Or.inl hl
      · exact Or.inr ⟨n, lt_of_lt_of_le hn hmono, he⟩
    · rw [hr]; exact h2
  · constructor
    · rw [hr]
      intro x hx
      rcases List.mem_append.mp hx with hx | hx
      · rcases h1 x hx with hl | ⟨n, hn, he⟩
        · exact Or.inl hl
        · exact Or.inr ⟨n, lt_of_lt_of_le hn hmono, he⟩
      · have hx : x = r := List.mem_singleton.mp hx
        subst hx
        rcases hcase with ⟨hl, _⟩ | ⟨he, hc⟩
        · exact Or.inl hl
        · rw [hc] at *
          exact Or.inr ⟨s.counter, by omega, he⟩
    · rw [hr, List.pairwise_append]
      refine ⟨h2, by simp, ?_⟩
      intro a ha b hb
      have hb : b = r := List.mem_singleton.mp hb
      subst hb
      intro n m han hbm
      rcases hcase with ⟨hl, _⟩ | ⟨he, _⟩
      · exact absurd hbm (isLineTag_ne_autoId m hl)
      · rcases h1 a ha with hal | ⟨k, hk, hek⟩
        · exact absurd han (isLineTag_ne_autoId n hal)
        · have hkn : k = n := autoId_inj (hek.symm.trans han)
          have hms : s.counter = m := autoId_inj (he.symm.trans hbm)
          omega

theorem idInv_init : IdInv initState := by
  constructor <;> simp [initState]

theorem idInv_parse (ls : List (List Char)) : IdInv (parseYarn ls) :=
  foldl_inv idInv_step ls initState idInv_init

/-! ### Claim theorems -/

/-- Claim C1, as stated, is false: the empty-text guard runs before
choice stripping and speaker extraction, so the body line `->` emits a
Record whose text is the empty string. -/
theorem c1_counterexample :
    ¬ (∀ r ∈ (parseYarn [strL "---", strL "->"]).records, r.text ≠ []) := by
  decide

/-- Claim C1 (amended): no Record is emitted for a line whose text is
empty after tag stripping; the guard does not cover emptiness produced
later by choice-conditional removal or speaker extraction. -/
theorem c1_no_record_when_tag_stripped_empty (s : PState) (raw : List Char)
    (h : tagText raw = []) : (processLine s raw).records = s.records := by
  simp only [processLine]
  split_ifs <;> try rfl
  rw [processBody_spec]
  have h' : pyStrip (removeTags (pyStrip raw)) = [] := h
  rw [if_pos h']

/-- Witness for the amended C1 at a concrete body line consisting of a
single tag. -/
theorem c1_no_record_when_tag_stripped_empty_w :
    (processLine ⟨strL "NO_TITLE", true, 0, []⟩ (strL "#tag")).records
      = (⟨strL "NO_TITLE", true, 0, []⟩ : PState).records :=
  c1_no_record_when_tag_stripped_empty _ _ (by decide)

/-- Claim C9: every emitted identifier is either an explicit tag whose
lowercasing starts with `line:` or a synthesized `auto_id_` value, and
no `line:`-tagged identifier can equal a synthesized one, so the two
sets are disjoint in every run. -/
theorem c9_synth_explicit_disjoint :
    (∀ ls : List (List Char), ∀ r ∈ (parseYarn ls).records,
        isLineTag r.line_id = true ∨ ∃ n, r.line_id = autoId n) ∧
    (∀ (t : List Char) (n : Nat), isLineTag t = true → t ≠ autoId n) := by
  constructor
  · intro ls r hr
    rcases (idInv_parse ls).1 r hr with h | ⟨n, _, h⟩
    · exact Or.inl h
    · exact Or.inr ⟨n, h⟩
  · intro t n h
    exact isLineTag_ne_autoId n h

/-- Witness for C9 at a concrete run and a concrete pair of
identifiers. -/
theorem c9_synth_explicit_disjoint_w :
    (isLineTag (strL "line:x") = true ∨ ∃ n, strL "line:x" = autoId n) ∧
      strL "line:x" ≠ autoId 5 := by
  constructor
  · exact c9_synth_explicit_disjoint.1 [strL "---", strL "a #line:x"]
      ⟨strL "line:x", strL "NO_TITLE", [], strL "a", []⟩ (by decide)
  · exact c9_synth_explicit_disjoint.2 (strL "line:x") 5 (by decide)

/-- Claim C3, as stated, is false: nothing enforces uniqueness of
explicitly tagged identifiers, so two lines carrying the same `line:`
tag yield two Records with equal identifiers. -/
theorem c3_counterexample :
    ¬ ((parseYarn [strL "---", strL "a #line:x", strL "b #line:x"]).records.map
        (fun r => r.line_id)).Nodup := by
  decide

/-- Claim C3 (amended): synthesized identifiers are unique within a
run — two distinct emitted Records whose identifiers are both of the
synthesized `auto_id_` form always differ (explicit identifiers are
not checked). -/
theorem c3_synth_ids_unique (ls : List (List Char)) (i j : Nat)
    (hi : i < (parseYarn ls).records.length)
    (hj : j < (parseYarn ls).records.length)
    (hij : i ≠ j) (n m : Nat)
    (hn : ((parseYarn ls).records.get ⟨i, hi⟩).line_id = autoId n)
    (hm : ((parseYarn ls).records.get ⟨j, hj⟩).line_id = autoId m) :
    ((parseYarn ls).records.get ⟨i, hi⟩).line_id ≠
      ((parseYarn ls).records.get ⟨j, hj⟩).line_id := by
  have hp := (idInv_parse ls).2
  rw [List.pairwise_iff_get] at hp
  rcases Nat.lt_or_ge i j with hlt | hge
  · have hnm := hp ⟨i, hi⟩ ⟨j, hj⟩ (Fin.mk_lt_mk.mpr hlt) n m hn hm
    intro he
    rw [hn, hm] at he
    exact absurd (autoId_inj he) (by omega)
  · have hlt : j < i := by omega
    have hnm := hp ⟨j, hj⟩ ⟨i, hi⟩ (Fin.mk_lt_mk.mpr hlt) m n hm hn
    intro he
    rw [hn, hm] at he
    exact absurd (autoId_inj he) (by omega)

/-- Witness for the amended C3 at a concrete run with two synthesized
identifiers. -/
theorem c3_synth_ids_unique_w :
    ((parseYarn [strL "---", strL "a", strL "b"]).records.get
        ⟨0, by decide⟩).line_id ≠
      ((parseYarn [strL "---", strL "a", strL "b"]).records.get
        ⟨1, by decide⟩).line_id :=
  c3_synth_ids_unique [strL "---", strL "a", strL "b"] 0 1 (by decide)
    (by decide) (by decide) 0 1 (by decide) (by decide)

theorem processLine_body (s : PState) (raw : List Char) (hb : BodyLine s raw) :
    processLine s raw = processBody s (pyStrip raw) := by
  obtain ⟨h1, h2, h3, h4, h5, h6, h7⟩ := hb
  simp only [processLine]
  rw [if_neg h1, if_neg (by simp [h2]), if_neg h3, if_neg h4, if_pos h5,
    if_neg (by simp [h6, h7])]

theorem counter_unchanged_of_not_body (s : PState) (raw : List Char)
    (hb : ¬ BodyLine s raw) : (processLine s raw).counter = s.counter := by
  simp only [processLine]
  by_cases h1 : pyStrip raw = []
  · rw [if_pos h1]
  · rw [if_neg h1]
    by_cases h2 : startsWithL (strL "title:") (pyStrip raw) = true
    · rw [if_pos h2]
    · rw [if_neg h2]
      by_cases h3 : pyStrip raw = strL "---"
      · rw [if_pos h3]
      · rw [if_neg h3]
        by_cases h4 : pyStrip raw = strL "==="
        · rw [if_pos h4]
        · rw [if_neg h4]
          by_cases h5 : s.inBody = true
          · rw [if_pos h5]
            by_cases h6 : (startsWithL (strL "//") (pyStrip raw) ||
                startsWithL (strL "<<") (pyStrip raw)) = true
            · rw [if_pos h6]
            · exfalso
              apply hb
              refine ⟨h1, ?_, h3, h4, h5, ?_, ?_⟩
              · simpa using h2
              · have := (Bool.or_eq_false_iff).mp (by simpa using h6)
                exact this.1
              · have := (Bool.or_eq_false_iff).mp (by simpa using h6)
                exact this.2
          · rw [if_neg h5]

/-- Claim C4: the auto-id counter advances by one exactly on the
non-comment, non-command body lines that lack an explicit `line:` tag,
and a body line whose text is empty after tag stripping emits no
Record even though the counter ran — so synthesized identifiers can
skip values relative to the emitted Records. -/
theorem c4_counter_advance (s : PState) (raw : List Char) :
    (BodyLine s raw ∧ hasLineTag raw = false →
        (processLine s raw).counter = s.counter + 1) ∧
    (¬ (BodyLine s raw ∧ hasLineTag raw = false) →
        (processLine s raw).counter = s.counter) ∧
    (BodyLine s raw → tagText raw = [] →
        (processLine s raw).records = s.records) := by
  refine ⟨?_, ?_, ?_⟩
  · rintro ⟨hb, hl⟩
    rw [processLine_body s raw hb, processBody_spec]
    have hnil : pickId (findTags (pyStrip raw)) = [] := pickId_nil_of_none hl
    rw [if_pos hnil]
  · intro hn
    by_cases hb : BodyLine s raw
    · have hl : hasLineTag raw = true := by
        cases h' : hasLineTag raw
        · exact absurd ⟨hb, h'⟩ hn
        · rfl
      rw [processLine_body s raw hb, processBody_spec]
      have hne : pickId (findTags (pyStrip raw)) ≠ [] := pickId_ne_nil hl
      rw [if_neg hne]
    · exact counter_unchanged_of_not_body s raw hb
  · intro hb ht
    rw [processLine_body s raw hb, processBody_spec]
    have h' : pyStrip (removeTags (pyStrip raw)) = [] := ht
    rw [if_pos h']

/-- Witness for C4: the body line `#a` (only a tag, no `line:` tag)
advances the counter yet emits nothing. -/
theorem c4_counter_advance_w :
    (processLine ⟨strL "NO_TITLE", true, 0, []⟩ (strL "#a")).counter = 0 + 1 ∧
    (processLine ⟨strL "NO_TITLE", true, 0, []⟩ (strL "#a")).records = [] := by
  constructor
  · exact (c4_counter_advance ⟨strL "NO_TITLE", true, 0, []⟩ (strL "#a")).1
      ⟨by decide, by decide⟩
  · exact (c4_counter_advance ⟨strL "NO_TITLE", true, 0, []⟩ (strL "#a")).2.2
      (by decide) (by decide)

theorem titleStep_noTitle (l : List Char)
    (h : startsWithL (strL "title:") (pyStrip l) = false) :
    titleStep (strL "NO_TITLE") l = strL "NO_TITLE" := by
  simp only [titleStep]
  split_ifs with hh1 hh2 hh3 hh4 <;> first | rfl | simp [h] at hh2

theorem titleAfter_noTitle : ∀ pre : List (List Char),
    (∀ l ∈ pre, startsWithL (strL "title:") (pyStrip l) = false) →
    titleAfter pre = strL "NO_TITLE" := by
  intro pre
  induction pre with
  | nil => intro _; rfl
  | cons l ls ih =>
    intro h
    unfold titleAfter at *
    rw [List.foldl_cons, titleStep_noTitle l (h l (List.mem_cons_self l ls))]
    exact ih (fun x hx => h x (List.mem_cons_of_mem l hx))

/-- Claim C5: a Record emitted while processing a line carries the node
title in force when that line was read (the most recent `title:`
header's extracted title, `NO_TITLE` after a `===` reset); a `title:`
header also forcibly exits body mode; a `===` line exits body mode and
resets the title; and with no `title:` header in the prefix the title
is `NO_TITLE`. -/
theorem c5_node_title :
    (∀ (pre : List (List Char)) (l : List Char),
        ∀ r ∈ (parseYarn (pre ++ [l])).records.drop
            (parseYarn pre).records.length,
          r.node_title = titleAfter pre) ∧
    (∀ (pre : List (List Char)) (l : List Char),
        startsWithL (strL "title:") (pyStrip l) = true →
          (parseYarn (pre ++ [l])).inBody = false ∧
          (parseYarn (pre ++ [l])).title = pyStrip (afterColon (pyStrip l))) ∧
    (∀ (pre : List (List Char)) (l : List Char),
        pyStrip l = strL "===" →
          (parseYarn (pre ++ [l])).inBody = false ∧
          (parseYarn (pre ++ [l])).title = strL "NO_TITLE") ∧
    (∀ pre : List (List Char),
        (∀ l ∈ pre, startsWithL (strL "title:") (pyStrip l) = false) →
          titleAfter pre = strL "NO_TITLE") := by
  refine ⟨?_, ?_, ?_, titleAfter_noTitle⟩
  · intro pre l r hr
    rw [parseYarn_append] at hr
    rcases processLine_delta (parseYarn pre) l with hd | ⟨r0, hd, hti⟩
    · rw [hd, List.drop_length] at hr
      cases hr
    · rw [hd, List.drop_left] at hr
      have he : r = r0 := List.mem_singleton.mp hr
      subst he
      rw [hti, parseYarn_title]
  · intro pre l h
    rw [parseYarn_append]
    simp only [processLine]
    have h1 : pyStrip l ≠ [] := by
      intro he
      rw [he] at h
      exact absurd h (by decide)
    rw [if_neg h1, if_pos h]
    exact ⟨rfl, rfl⟩
  · intro pre l h
    rw [parseYarn_append]
    simp only [processLine]
    have h1 : pyStrip l ≠ [] := by rw [h]; decide
    have h2 : startsWithL (strL "title:") (pyStrip l) = false := by
      rw [h]; decide
    have h3 : pyStrip l ≠ strL "---" := by rw [h]; decide
    rw [if_neg h1, if_neg (by simp [h2]), if_neg h3, if_pos h]
    exact ⟨rfl, rfl⟩

/-- Witness for C5 at concrete prefixes and lines. -/
theorem c5_node_title_w :
    (Record.node_title
        ⟨strL "auto_id_0", strL "Start", strL "Bob", strL "Hi", []⟩
      = titleAfter [strL "title: Start", strL "---"]) ∧
    ((parseYarn [strL "---", strL "title: X"]).inBody = false ∧
      (parseYarn [strL "---", strL "title: X"]).title
        = pyStrip (afterColon (pyStrip (strL "title: X")))) ∧
    ((parseYarn [strL "==="]).inBody = false ∧
      (parseYarn [strL "==="]).title = strL "NO_TITLE") ∧
    titleAfter [strL "---", strL "a"] = strL "NO_TITLE" := by
  refine ⟨?_, ?_, ?_, ?_⟩
  · exact c5_node_title.1 [strL "title: Start", strL "---"] (strL "Bob: Hi")
      ⟨strL "auto_id_0", strL "Start", strL "Bob", strL "Hi", []⟩ (by decide)
  · exact c5_node_title.2.1 [strL "---"] (strL "title: X") (by decide)
  · exact c5_node_title.2.2.1 [] (strL "===") (by decide)
  · exact c5_node_title.2.2.2 [strL "---", strL "a"] (by decide)

/-- Claim C2, as stated, is false: with two `line:` tags on one line the
selection loop keeps the LAST one, not the first. -/
theorem c2_counterexample :
    (parseYarn [strL "---", strL "x #line:a #line:b"]).records.map
        (fun r => r.line_id) = [strL "line:b"] ∧
      strL "line:b" ≠ strL "line:a" := by
  decide

/-- Claim C2 (amended): for a body line with at least one
(case-insensitive) `line:` tag and non-empty stripped text, the emitted
identifier is the LAST such tag in left-to-right order, verbatim, and
the non-matching tags are retained in their original order. -/
theorem c2_last_line_tag (s : PState) (raw : List Char) (hb : BodyLine s raw)
    (hm : hasLineTag raw = true) (ht : tagText raw ≠ []) :
    ∃ sp tx, (processLine s raw).records = s.records ++
      [⟨((findTags (pyStrip raw)).filter (fun t => isLineTag t)).getLastD [],
        s.title, sp, tx,
        (findTags (pyStrip raw)).filter (fun t => !(isLineTag t))⟩] := by
  rw [processLine_body s raw hb, processBody_spec]
  have ht' : pyStrip (removeTags (pyStrip raw)) ≠ [] := ht
  rw [if_neg ht']
  have hne : pickId (findTags (pyStrip raw)) ≠ [] := pickId_ne_nil hm
  rw [if_neg hne, if_neg hne]
  refine ⟨if startsWithL (strL "->") (pyStrip (removeTags (pyStrip raw))) = true
      then [] else (speakerSplit (pyStrip (removeTags (pyStrip raw)))).1,
    if startsWithL (strL "->") (pyStrip (removeTags (pyStrip raw))) = true
      then pyStrip (removeCond (pyStrip (dropArrows
        (pyStrip (removeTags (pyStrip raw))))))
      else (speakerSplit (pyStrip (removeTags (pyStrip raw)))).2, ?_⟩
  rw [← pickId_spec]

/-- Witness for the amended C2 at a line carrying two `line:` tags (in
different letter cases) and one plain tag. -/
theorem c2_last_line_tag_w :
    ∃ sp tx, (processLine ⟨strL "NO_TITLE", true, 0, []⟩
        (strL "hi #line:A #t #Line:B")).records
      = (⟨strL "NO_TITLE", true, 0, []⟩ : PState).records ++
        [⟨((findTags (pyStrip (strL "hi #line:A #t #Line:B"))).filter
              (fun t => isLineTag t)).getLastD [],
          strL "NO_TITLE", sp, tx,
          (findTags (pyStrip (strL "hi #line:A #t #Line:B"))).filter
            (fun t => !(isLineTag t))⟩] :=
  c2_last_line_tag _ _ (by decide) (by decide) (by decide)

/-- Claim C7: feeding the tag syntax `#line:X` back in reproduces the
identifier `line:X` verbatim — for any string X, a body line whose only
`line:` tag is `line:X` and whose stripped text is non-empty emits a
Record with exactly that identifier. -/
theorem c7_roundtrip (s : PState) (raw X : List Char) (hb : BodyLine s raw)
    (honly : (findTags (pyStrip raw)).filter (fun t => isLineTag t)
        = [strL "line:" ++ X])
    (ht : tagText raw ≠ []) :
    ∃ sp tx tg, (processLine s raw).records = s.records ++
      [⟨strL "line:" ++ X, s.title, sp, tx, tg⟩] := by
  rw [processLine_body s raw hb, processBody_spec]
  have ht' : pyStrip (removeTags (pyStrip raw)) ≠ [] := ht
  rw [if_neg ht']
  have hpick : pickId (findTags (pyStrip raw)) = strL "line:" ++ X := by
    rw [pickId_spec, honly]
    rfl
  have hne : pickId (findTags (pyStrip raw)) ≠ [] := by
    rw [hpick]
    have hx : strL "line:" ++ X = 'l' :: (strL "ine:" ++ X) := rfl
    rw [hx]
    exact List.cons_ne_nil _ _
  rw [if_neg hne, hpick]
  exact ⟨_, _, _, rfl⟩

/-- Witness for C7 at the line `t #line:XYZ`. -/
theorem c7_roundtrip_w :
    ∃ sp tx tg, (processLine ⟨strL "NO_TITLE", true, 0, []⟩
        (strL "t #line:XYZ")).records
      = (⟨strL "NO_TITLE", true, 0, []⟩ : PState).records ++
        [⟨strL "line:" ++ strL "XYZ", strL "NO_TITLE", sp, tx, tg⟩] :=
  c7_roundtrip _ _ (strL "XYZ") (by decide) (by decide) (by decide)

/-- Claim C6: the line `-> Leave <<if $flag>> #line:002` emits exactly
the Record with identifier `line:002`, empty speaker, text `Leave` and
no tags; in general a body line whose tag-stripped text begins with
`->` has its leading `-`/`>` run stripped, inline `<< ... >>`
conditional removed, and speaker extraction skipped. -/
theorem c6_choice_line :
    ((parseYarn [strL "---", strL "-> Leave <<if $flag>> #line:002"]).records
      = [⟨strL "line:002", strL "NO_TITLE", [], strL "Leave", []⟩]) ∧
    (∀ (s : PState) (raw : List Char), BodyLine s raw →
      startsWithL (strL "->") (tagText raw) = true → tagText raw ≠ [] →
      ∃ lid tg, (processLine s raw).records = s.records ++
        [⟨lid, s.title, [],
          pyStrip (removeCond (pyStrip (dropArrows (tagText raw)))), tg⟩]) := by
  constructor
  · decide
  · intro s raw hb hc ht
    rw [processLine_body s raw hb, processBody_spec]
    have ht' : pyStrip (removeTags (pyStrip raw)) ≠ [] := ht
    rw [if_neg ht']
    have hc' : startsWithL (strL "->") (pyStrip (removeTags (pyStrip raw)))
        = true := hc
    rw [if_pos hc', if_pos hc']
    exact ⟨_, _, rfl⟩

/-- Witness for the general part of C6 at the choice line
`-> Go <<if $x>>`. -/
theorem c6_choice_line_w :
    ∃ lid tg, (processLine ⟨strL "NO_TITLE", true, 0, []⟩
        (strL "-> Go <<if $x>>")).records
      = (⟨strL "NO_TITLE", true, 0, []⟩ : PState).records ++
        [⟨lid, strL "NO_TITLE", [],
          pyStrip (removeCond (pyStrip (dropArrows
            (tagText (strL "-> Go <<if $x>>"))))), tg⟩] :=
  c6_choice_line.2 _ _ (by decide) (by decide) (by decide)

/-- Claim C10, as stated, is false: the non-choice body line
`a <<b:c>> d` contains the sequence `<<b:c>>`, yet speaker extraction
splits at the colon inside it, so the emitted text `c>> d` does not
preserve the sequence. -/
theorem c10_counterexample :
    ((parseYarn [strL "---", strL "a <<b:c>> d"]).records.map
        (fun r => r.text) = [strL "c>> d"]) ∧
      hasSub (strL "<<b:c>>") (strL "a <<b:c>> d") = true ∧
      hasSub (strL "<<b:c>>") (strL "c>> d") = false := by
  decide

/-- Claim C10 (amended): the conditional-removal step runs only on
choice lines — a non-choice body line's emitted text comes solely from
tag stripping and speaker splitting, so a `<< ... >>` sequence is
preserved verbatim whenever the tag-stripped text contains no colon
(speaker extraction can otherwise split it, and tag stripping can
remove one inside a `#` tag); whole body lines starting with `<<` are
skipped as commands. -/
theorem c10_cond_removal_only_on_choices :
    (∀ (s : PState) (raw : List Char), BodyLine s raw →
      startsWithL (strL "->") (tagText raw) = false → tagText raw ≠ [] →
      ∃ lid tg, (processLine s raw).records = s.records ++
        [⟨lid, s.title, (speakerSplit (tagText raw)).1,
          (speakerSplit (tagText raw)).2, tg⟩] ∧
        ((tagText raw).all (fun c => c ≠ ':') = true →
          (speakerSplit (tagText raw)).2 = tagText raw)) ∧
    (∀ (s : PState) (raw : List Char), s.inBody = true →
      startsWithL (strL "<<") (pyStrip raw) = true →
      processLine s raw = s) := by
  constructor
  · intro s raw hb hc ht
    rw [processLine_body s raw hb, processBody_spec]
    have ht' : pyStrip (removeTags (pyStrip raw)) ≠ [] := ht
    rw [if_neg ht']
    have hc'' : startsWithL (strL "->") (pyStrip (removeTags (pyStrip raw)))
        = false := hc
    have hc' : ¬ startsWithL (strL "->") (pyStrip (removeTags (pyStrip raw)))
        = true := by
      simp [hc'']
    rw [if_neg hc', if_neg hc']
    refine ⟨_, _, rfl, ?_⟩
    intro hall
    have htw : (tagText raw).takeWhile (fun c => c ≠ ':') = tagText raw :=
      List.takeWhile_eq_self_iff.mpr (List.all_eq_true.mp hall)
    unfold speakerSplit
    rw [htw, if_pos (Or.inr rfl)]
  · intro s raw h5 hcc
    obtain ⟨rest, hshape⟩ := (startsWithL_iff (strL "<<") (pyStrip raw)).mp hcc
    have hshape' : pyStrip raw = '<' :: '<' :: rest := by rw [hshape]; rfl
    simp only [processLine]
    have h1 : pyStrip raw ≠ [] := by
      rw [hshape']; exact List.cons_ne_nil _ _
    have h2 : startsWithL (strL "title:") (pyStrip raw) = false := by
      rw [hshape']
      exact startsWithL_cons_false (by decide) _ _
    have h3 : pyStrip raw ≠ strL "---" := by
      rw [hshape']
      have hm : strL "---" = '-' :: '-' :: '-' :: [] := rfl
      rw [hm]
      intro hx
      injection hx with hx1 _
      exact absurd hx1 (by decide)
    have h4 : pyStrip raw ≠ strL "===" := by
      rw [hshape']
      have hm : strL "===" = '=' :: '=' :: '=' :: [] := rfl
      rw [hm]
      intro hx
      injection hx with hx1 _
      exact absurd hx1 (by decide)
    rw [if_neg h1, if_neg (by simp [h2]), if_neg h3, if_neg h4, if_pos h5,
      if_pos (by simp [hcc] : (startsWithL (strL "//") (pyStrip raw) ||
        startsWithL (strL "<<") (pyStrip raw)) = true)]

/-- Witness for the amended C10: a non-choice line whose conditional
contains no colon is emitted with the conditional intact, and a command
line is skipped. -/
theorem c10_cond_removal_only_on_choices_w :
    (∃ lid tg,
      (processLine ⟨strL "NO_TITLE", true, 0, []⟩
          (strL "Hello <<wave>> there")).records
        = (⟨strL "NO_TITLE", true, 0, []⟩ : PState).records ++
          [⟨lid, strL "NO_TITLE",
            (speakerSplit (tagText (strL "Hello <<wave>> there"))).1,
            (speakerSplit (tagText (strL "Hello <<wave>> there"))).2, tg⟩] ∧
        ((tagText (strL "Hello <<wave>> there")).all (fun c => c ≠ ':')
            = true →
          (speakerSplit (tagText (strL "Hello <<wave>> there"))).2
            = tagText (strL "Hello <<wave>> there"))) ∧
    processLine ⟨strL "T", true, 3, []⟩ (strL "<<set $x>>")
      = ⟨strL "T", true, 3, []⟩ :=
  ⟨c10_cond_removal_only_on_choices.1 _ _ (by decide) (by decide) (by decide),
   c10_cond_removal_only_on_choices.2 _ _ (by decide) (by decide)⟩

/-- Claim C8: with an explicit input path that the filesystem does not
contain, the run prints a message naming the path, exits with code 1
(non-zero), and never opens or writes the destination file. -/
theorem c8_missing_input (fs : List Char → Option (List (List Char)))
    (inp outp : List Char) (h : fs inp = none) :
    (runParser fs inp outp).exitCode = 1 ∧
    (runParser fs inp outp).exitCode ≠ 0 ∧
    (runParser fs inp outp).message
      = strL "Error: Input file not found at '" ++ inp ++ strL "'" ∧
    (runParser fs inp outp).written = none := by
  have hr : runParser fs inp outp =
      { exitCode := 1,
        message := strL "Error: Input file not found at '" ++ inp ++ strL "'",
        written := none } := by
    unfold runParser
    rw [h]
  rw [hr]
  exact ⟨rfl, Nat.one_ne_zero, rfl, rfl⟩

/-- Witness for C8 on an empty filesystem. -/
theorem c8_missing_input_w :
    (runParser (fun _ => none) (strL "in.yarn") (strL "out.csv")).exitCode = 1 ∧
    (runParser (fun _ => none) (strL "in.yarn") (strL "out.csv")).exitCode ≠ 0 ∧
    (runParser (fun _ => none) (strL "in.yarn") (strL "out.csv")).message
      = strL "Error: Input file not found at '" ++ strL "in.yarn" ++ strL "'" ∧
    (runParser (fun _ => none) (strL "in.yarn") (strL "out.csv")).written
      = none :=
  c8_missing_input (fun _ => none) (strL "in.yarn") (strL "out.csv") rfl
